import Mathlib

/-!
Shallow embedding of the object-model and Java language-model code of the
apis-client-generator repository, covering
`src/googleapis/codegen/java_generator.py` and
`src/googleapis/codegen/template_objects.py`.

Python strings are embedded as `String`, dictionaries with string keys as
functions `String → Option _`, raised exceptions as `Except PyErr _`, and
Python truthiness is modelled explicitly (None and the empty string are
falsy; instances of classes without special methods are truthy).
-/

/-- Python exceptions raised by the embedded code paths. -/
inductive PyErr where
  | indexError
  | keyError (key : String)
  | valueError (msg : String)
  deriving DecidableEq, Repr

deriving instance DecidableEq for Except

/-- Embedding of Python str.lower: lowercases every character. -/
def lowerStr (s : String) : String := ⟨s.data.map Char.toLower⟩

/-- Embedding of Python str.replace for the single-character pattern "/":
each slash is replaced by the given delimiter string. -/
def pyReplaceSlash (delim : String) (s : String) : String :=
  ⟨(s.data.map (fun c => if c = '/' then delim.data else [c])).flatten⟩

/-- Python truthiness of an optional string: None and the empty string are falsy. -/
def truthyOpt : Option String → Bool
  | none => false
  | some s => s != ""

namespace utilities

/-- Separator characters consumed by camel-casing: underscore, hyphen, dot,
slash and space (compared via code points). -/
def isSepChar (c : Char) : Bool :=
  c.toNat == 95 || c.toNat == 45 || c.toNat == 46 || c.toNat == 47 || c.toNat == 32

/-- Character-level worker for `CamelCase`: the flag says whether the next
letter starts a new word and is uppercased. -/
def camelChars : Bool → List Char → List Char
  | _, [] => []
  | capNext, c :: cs =>
    if isSepChar c then camelChars true cs
    else (if capNext then c.toUpper else c) :: camelChars false cs

/-- Modelled from the spec: `utilities.CamelCase` lives in
googleapis/codegen/utilities.py, which is not under src/. The spec uses it as
"camel-case the input": capitalize the first letter of each
separator-delimited word and drop the separators. -/
def CamelCase (s : String) : String := ⟨camelChars true s.data⟩

end utilities

/-- The import definition attached to a type-map entry
(java_generator.py, import_definition.ImportDefinition). -/
structure ImportDefinition where
  imports : List String
  template_values : List String
  deriving DecidableEq, Repr

/-- The fragment of the Api object consulted by the naming methods:
`the_api.values` restricted to the "name" key. -/
structure Api where
  name : String
  deriving DecidableEq, Repr

/-- A Json-schema dictionary restricted to string-valued keys; the embedded
code reads only the "type" and "format" keys. -/
def DefDict := String → Option String

/-- The fragment of a DataValue consulted by the numeric renderers:
`data_value.value` (an integer) and `data_value.code_type` (the resolved
target type name). -/
structure DataValue where
  value : Int
  code_type : String

/-- The ValueError message raised by the `_Int` renderers
(java_generator.py lines 257-261 and 424-428). -/
def intErrMsg (value : Int) (code_type : String) : String :=
  "Provided DataValue (" ++
    (toString value ++
      (") does not present an appropriate Java annotated code type (" ++
        (code_type ++ ").")))

/-- Python percent-formatting restricted to the two format strings appearing
in the `_Int` tables. -/
def applyPercentFmt (fmt : String) (v : Int) : String :=
  if fmt = "%sL" then toString v ++ "L" else toString v

namespace JavaLanguageModel

def _JSON_STRING_IMPORT : String := "com.google.api.client.json.JsonString"

def _JSON_STRING_TEMPLATE_VALUE : String := "requiresJsonString"

/-- java_generator.py lines 187-211. -/
def TYPE_FORMAT_TO_DATATYPE_AND_IMPORTS :
    List ((String × Option String) × (String × ImportDefinition)) := [
  (("boolean", none), ("Boolean", ⟨["java.lang.Boolean"], []⟩)),
  (("any", none), ("Object", ⟨["java.lang.Object"], []⟩)),
  (("integer", some "int16"), ("Short", ⟨["java.lang.Short"], []⟩)),
  (("integer", some "int32"), ("Integer", ⟨["java.lang.Integer"], []⟩)),
  (("integer", some "uint32"), ("Long", ⟨["java.lang.Long"], []⟩)),
  (("number", some "double"), ("Double", ⟨["java.lang.Double"], []⟩)),
  (("number", some "float"), ("Float", ⟨["java.lang.Float"], []⟩)),
  (("object", none), ("Object", ⟨["java.lang.Object"], []⟩)),
  (("string", none), ("String", ⟨["java.lang.String"], []⟩)),
  (("string", some "byte"), ("String", ⟨["java.lang.String"], []⟩)),
  (("string", some "date"), ("DateTime", ⟨["com.google.api.client.util.DateTime"], []⟩)),
  (("string", some "date-time"), ("DateTime", ⟨["com.google.api.client.util.DateTime"], []⟩)),
  (("string", some "int64"),
    ("Long", ⟨["java.lang.Long", _JSON_STRING_IMPORT], [_JSON_STRING_TEMPLATE_VALUE]⟩)),
  (("string", some "uint64"),
    ("UnsignedLong", ⟨["com.google.common.primitives.UnsignedLong", _JSON_STRING_IMPORT],
      [_JSON_STRING_TEMPLATE_VALUE]⟩))]

/-- java_generator.py lines 213-221. -/
def _JAVA_KEYWORDS : List String := [
  "abstract", "assert", "boolean", "break", "byte", "case", "catch", "char",
  "class", "const", "continue", "default", "do", "double", "else", "enum",
  "extends", "final", "finally", "float", "for", "goto", "if", "implements",
  "instanceof", "import", "int", "interface", "long", "native", "new",
  "package", "private", "protected", "public", "return", "short", "static",
  "strictfp", "super", "switch", "synchronized", "this", "throw", "throws",
  "transient", "try", "void", "volatile", "while"]

/-- java_generator.py lines 225-228. -/
def _SPECIAL_CLASS_NAMES : List String := ["entry"]

/-- java_generator.py lines 232-234. -/
def RESERVED_CLASS_NAMES : List String :=
  _JAVA_KEYWORDS ++ _SPECIAL_CLASS_NAMES ++
    ["float", "integer", "object", "string", "true", "false"]

/-- java_generator.py lines 267-288: GetCodeTypeFromDictionary. -/
def GetCodeTypeFromDictionary (def_dict : DefDict) : String :=
  let json_type := (def_dict "type").getD "string"
  let json_format := def_dict "format"
  match TYPE_FORMAT_TO_DATATYPE_AND_IMPORTS.lookup (json_type, json_format) with
  | some datatype_and_imports => datatype_and_imports.1
  | none => utilities.CamelCase json_type

/-- java_generator.py lines 314-320: ToMemberName. Indexing camel_s[0] on an
empty camel-cased string raises IndexError. -/
def ToMemberName (s : String) (the_api : Api) : Except PyErr String :=
  let camel_s := utilities.CamelCase s
  if lowerStr s ∈ RESERVED_CLASS_NAMES then
    .ok (the_api.name ++ camel_s)
  else
    match camel_s.data with
    | [] => .error .indexError
    | c :: cs => .ok ⟨c.toLower :: cs⟩

/-- The fragment of a parent schema consulted by ToSafeClassName: its
class_name and the already-assigned safeClassName of each node on its
full_path (root first, the parent itself last). -/
structure ParentCtx where
  class_name : String
  full_path_safeClassNames : List String
  deriving DecidableEq, Repr

/-- The for-loop of ToSafeClassName (java_generator.py lines 337-340): each
ancestor whose assigned safe class name equals the running candidate causes
the candidate to be prefixed with the immediate parent class name. -/
def disambiguate (class_name : String) (ancestors : List String) (candidate : String) : String :=
  ancestors.foldl (fun cur ancestor => if ancestor = cur then class_name ++ cur else cur) candidate

/-- java_generator.py lines 323-345: ToSafeClassName. -/
def ToSafeClassName (s : String) (the_api : Api) (parent : Option ParentCtx) : String :=
  let safe_class_name := utilities.CamelCase s
  let safe_class_name :=
    match parent with
    | none => safe_class_name
    | some p => disambiguate p.class_name p.full_path_safeClassNames safe_class_name
  if lowerStr safe_class_name ∈ RESERVED_CLASS_NAMES then
    utilities.CamelCase the_api.name ++ utilities.CamelCase s
  else safe_class_name

/-- The local code_types table of JavaLanguageModel._Int
(java_generator.py lines 250-254). -/
def code_types : List (String × String) :=
  [("Short", "%s"), ("Integer", "%s"), ("Long", "%sL")]

/-- java_generator.py lines 247-261: _Int. -/
def _Int (data_value : DataValue) : Except PyErr String :=
  match code_types.lookup data_value.code_type with
  | some fmt => .ok (applyPercentFmt fmt data_value.value)
  | none => .error (.valueError (intErrMsg data_value.value data_value.code_type))

end JavaLanguageModel

namespace Java14LanguageModel

/-- java_generator.py lines 397-412. -/
def TYPE_FORMAT_TO_DATATYPE : List ((String × Option String) × String) := [
  (("boolean", none), "java.lang.Boolean"),
  (("any", none), "java.lang.Object"),
  (("integer", some "int16"), "java.lang.Short"),
  (("integer", some "int32"), "java.lang.Integer"),
  (("integer", some "uint32"), "java.lang.Long"),
  (("number", some "double"), "java.lang.Double"),
  (("number", some "float"), "java.lang.Float"),
  (("object", none), "java.lang.Object"),
  (("string", none), "java.lang.String"),
  (("string", some "byte"), "java.lang.String"),
  (("string", some "date"), "com.google.api.client.util.DateTime"),
  (("string", some "date-time"), "com.google.api.client.util.DateTime"),
  (("string", some "int64"), "java.lang.Long"),
  (("string", some "uint64"), "java.math.BigInteger")]

/-- java_generator.py lines 430-451: Java14LanguageModel.GetCodeTypeFromDictionary. -/
def GetCodeTypeFromDictionary (def_dict : DefDict) : String :=
  let json_type := (def_dict "type").getD "string"
  let json_format := def_dict "format"
  match TYPE_FORMAT_TO_DATATYPE.lookup (json_type, json_format) with
  | some datatype => datatype
  | none => utilities.CamelCase json_type

/-- The local code_types table of Java14LanguageModel._Int
(java_generator.py lines 417-421). -/
def code_types : List (String × String) :=
  [("java.lang.Short", "%s"), ("java.lang.Integer", "%s"), ("java.lang.Long", "%sL")]

/-- java_generator.py lines 414-428: Java14LanguageModel._Int. -/
def _Int (data_value : DataValue) : Except PyErr String :=
  match code_types.lookup data_value.code_type with
  | some fmt => .ok (applyPercentFmt fmt data_value.value)
  | none => .error (.valueError (intErrMsg data_value.value data_value.code_type))

end Java14LanguageModel

/-- A template value stored in a def_dict: the keys touched by the embedded
annotation code hold strings or booleans. -/
inductive TValue where
  | str (s : String)
  | bool (b : Bool)
  deriving DecidableEq, Repr

/-- Modelled from the spec: the data-type wrapper chain of
googleapis/codegen/data_types.py is not under src/. Collection types (json
type "array" or "map") hold a _base_type; the leaf is a scalar with a json
type and optional format. -/
inductive JsonDataType where
  | scalar (json_type : String) (format : Option String)
  | array (base : JsonDataType)
  | map (base : JsonDataType)
  deriving DecidableEq, Repr

/-- The while-loop of _HandleJsonString and _HandleImports: follow _base_type
until the json type is neither "array" nor "map", then read the format. -/
def leafTypeAndFormat : JsonDataType → String × Option String
  | .scalar t f => (t, f)
  | .array b => leafTypeAndFormat b
  | .map b => leafTypeAndFormat b

/-- The fragment of a Property or Parameter consulted by _HandleJsonString:
its data_type chain and its template-value dictionary. -/
structure Element where
  data_type : JsonDataType
  vals : String → Option TValue

/-- template_objects.py lines 63-65: SetTemplateValue on an element. -/
def Element.SetTemplateValue (e : Element) (name : String) (value : TValue) : Element :=
  { e with vals := fun k => if k = name then some value else e.vals k }

namespace Java14Generator

/-- java_generator.py lines 158-175: Java14Generator._HandleJsonString. -/
def _HandleJsonString (element : Element) : Element :=
  let tf := leafTypeAndFormat element.data_type
  let json_type := tf.1
  let json_format := tf.2
  if json_type = "string" ∧ (json_format = some "int64" ∨ json_format = some "uint64") then
    element.SetTemplateValue "requiresJsonString" (.bool true)
  else element

end Java14Generator

namespace CodeObject

/-- Arena model of the CodeObject forest of template_objects.py: nodes are
identified by Nat handles. `parent` and `children` mirror
CodeObject._parent and CodeObject._children; `module` mirrors
CodeObject._module as a handle into a module table; `vals` is the _def_dict
restricted to string values; `moduleName` gives the rendered name of each
module handle (the value of the Module.name property). -/
structure CodeForest where
  parent : Nat → Option Nat
  children : Nat → List Nat
  module : Nat → Option Nat
  vals : Nat → String → Option String
  moduleName : Nat → String

/-- A forest with no nodes wired up: every handle is unparented, childless
and without a module, as after CodeObject.__init__ with parent=None. -/
def emptyForest : CodeForest where
  parent := fun _ => none
  children := fun _ => []
  module := fun _ => none
  vals := fun _ _ => none
  moduleName := fun _ => ""

/-- template_objects.py lines 299-300: remove self from the old parent
children list. Python list.remove drops the first occurrence (under the
child-list invariant, the only one; off the invariant list.remove would
raise where List.erase is a no-op). -/
def eraseChild (f : CodeForest) (self : Nat) : CodeForest :=
  match f.parent self with
  | some old =>
    { f with children := fun n => if n = old then (f.children old).erase self else f.children n }
  | none => f

/-- template_objects.py line 301: reassign self._parent. -/
def setParentField (f : CodeForest) (self : Nat) (p : Option Nat) : CodeForest :=
  { f with parent := fun n => if n = self then p else f.parent n }

/-- template_objects.py lines 302-303: append self to the new parent
children list. -/
def appendChild (f : CodeForest) (self : Nat) (p : Option Nat) : CodeForest :=
  match p with
  | some q =>
    { f with children := fun n => if n = q then f.children q ++ [self] else f.children n }
  | none => f

/-- template_objects.py lines 293-303: CodeObject.SetParent. -/
def SetParent (f : CodeForest) (self : Nat) (parent : Option Nat) : CodeForest :=
  appendChild (setParentField (eraseChild f self) self parent) self parent

/-- Run a sequence of SetParent calls. -/
def runSetParents (f : CodeForest) (ops : List (Nat × Option Nat)) : CodeForest :=
  ops.foldl (fun g op => SetParent g op.1 op.2) f

/-- Every node occurs exactly once in the children list of its current
parent and in no other children list. -/
def ChildListInvariant (f : CodeForest) : Prop :=
  ∀ x n : Nat, (f.children n).count x = if f.parent x = some n then 1 else 0

/-- The ValueError message of the module property
(template_objects.py lines 175-176); the second interpolated value is the
object repr and is not modelled. -/
def moduleErrMsg (f : CodeForest) (n : Nat) : String :=
  "Asked for module of CodeObject without any: " ++ ((f.vals n "wireName").getD "<unnamed>")

/-- template_objects.py lines 156-176: the module property, as a
fuel-indexed walk up the parent chain (None means the fuel ran out before
the recursion finished, which on an acyclic chain never happens with fuel
larger than the depth). An assigned Module instance is always truthy. -/
def moduleOf (f : CodeForest) : Nat → Nat → Option (Except PyErr Nat)
  | 0, _ => none
  | fuel + 1, n =>
    match f.module n with
    | some m => some (.ok m)
    | none =>
      match f.parent n with
      | some p => moduleOf f fuel p
      | none => some (.error (.valueError (moduleErrMsg f n)))

/-- The parent chain from a node up to its root (the node first), with fuel. -/
def chainToRoot (f : CodeForest) : Nat → Nat → Option (List Nat)
  | 0, _ => none
  | fuel + 1, n =>
    match f.parent n with
    | none => some [n]
    | some p => (chainToRoot f fuel p).map (fun l => n :: l)

/-- The Python or-chain with string truthiness: an empty string falls
through to the next alternative. -/
def orTruthy (o : Option String) (fallback : String) : String :=
  match o with
  | some s => if s = "" then fallback else s
  | none => fallback

/-- template_objects.py lines 244-246: values.get className, or codeName,
or name with default empty. -/
def nameSegment (f : CodeForest) (n : Nat) : String :=
  orTruthy (f.vals n "className") (orTruthy (f.vals n "codeName") ((f.vals n "name").getD ""))

/-- template_objects.py lines 224-247: RelativeClassName, fuel-indexed. The
language model is assumed reachable (template-expansion context), its
class_name_delimiter passed explicitly. -/
def RelativeClassName (f : CodeForest) (class_name_delimiter : String) :
    Nat → Nat → Option Nat → Option String
  | 0, _, _ => none
  | fuel + 1, self, other =>
    if some self = other then some ""
    else
      let upper :=
        match f.parent self with
        | some p => RelativeClassName f class_name_delimiter fuel p other
        | none => some ""
      match upper with
      | none => none
      | some full_name =>
        let full_name := if full_name ≠ "" then full_name ++ class_name_delimiter else full_name
        some (full_name ++ nameSegment f self)

/-- Python truthiness of a Module instance: the class defines neither
__nonzero__ nor __len__, so it is always truthy. -/
def moduleTruthy (_m : Nat) : Bool := true

/-- template_objects.py lines 196-211: fullClassName. The module property
may raise; when it returns, the branch on the truthiness of the Module
decides between the qualified and the unqualified form. -/
def fullClassName (f : CodeForest) (class_name_delimiter : String) (fuel : Nat) (n : Nat) :
    Option (Except PyErr String) :=
  match moduleOf f fuel n with
  | none => none
  | some (.error e) => some (.error e)
  | some (.ok m) =>
    if moduleTruthy m then
      match RelativeClassName f class_name_delimiter fuel n none with
      | none => none
      | some rel => some (.ok (f.moduleName m ++ class_name_delimiter ++ rel))
    else
      match RelativeClassName f class_name_delimiter fuel n none with
      | none => none
      | some rel => some (.ok rel)

/-- The interface of a language model as consulted by the codeName
property: its ToMemberName method. -/
structure LangModelFns where
  toMemberName : String → Api → Except PyErr String

/-- The Java language model packaged for the codeName property. -/
def javaLanguageModelFns : LangModelFns := ⟨JavaLanguageModel.ToMemberName⟩

/-- A single CodeObject as consulted by the codeName property: its
_def_dict restricted to string values, and the language model reachable at
read time (the parent-chain walk of the language_model property is
abstracted into this field, which SetLanguageModel and reparenting may
change between reads). -/
structure CObj where
  vals : String → Option String
  language_model : Option LangModelFns

/-- template_objects.py lines 63-65: SetTemplateValue. -/
def CObj.SetTemplateValue (o : CObj) (name value : String) : CObj :=
  { o with vals := fun k => if k = name then some value else o.vals k }

/-- template_objects.py lines 289-291: SetLanguageModel. -/
def SetLanguageModel (o : CObj) (m : Option LangModelFns) : CObj :=
  { o with language_model := m }

/-- template_objects.py lines 178-194: the codeName property. A missing
wireName key raises KeyError; a falsy cached value (absent or empty) is
recomputed and cached; the computation defers to ToMemberName when a
language model is reachable. -/
def codeName (the_api : Api) (o : CObj) : Except PyErr (String × CObj) :=
  if truthyOpt (o.vals "codeName") then .ok ((o.vals "codeName").getD "", o)
  else
    match o.vals "wireName" with
    | none => .error (.keyError "wireName")
    | some w =>
      match o.language_model with
      | some m =>
        match m.toMemberName w the_api with
        | .error e => .error e
        | .ok cn => .ok (cn, o.SetTemplateValue "codeName" cn)
      | none => .ok (w, o.SetTemplateValue "codeName" w)

end CodeObject

/-- The mutable state of a Module (template_objects.py lines 346-451):
the slash-delimited path segment `_path` and the memoized `_name`. -/
structure ModuleState where
  _path : Option String
  _name : Option String
  deriving DecidableEq, Repr

namespace ModuleState

/-- template_objects.py lines 418-433: Module.SetPath fails when the
memoized _name is truthy. -/
def SetPath (m : ModuleState) (path : String) : Except PyErr ModuleState :=
  if truthyOpt m._name then
    .error (.valueError "SetPath called after first use of name property")
  else .ok { m with _path := some path }

/-- The slash-join of the pair (base_path, self._path) keeping only truthy
components (template_objects.py line 451). -/
def joinPathPair (base_path : String) (p : Option String) : String :=
  let second := p.getD ""
  if base_path ≠ "" then
    (if second ≠ "" then base_path ++ "/" ++ second else base_path)
  else second

/-- template_objects.py lines 443-451: the path property. The base path is
the parent path, or the language-model default container path at the root;
it is passed in as context. -/
def path (base_path : String) (m : ModuleState) : String := joinPathPair base_path m._path

/-- template_objects.py lines 435-441: the name property, returning the
value together with the updated state. A falsy memoized _name is
recomputed from the path with the module-name delimiter substituted. -/
def readName (module_name_delimiter base_path : String) (m : ModuleState) :
    String × ModuleState :=
  if truthyOpt m._name then (m._name.getD "", m)
  else
    let computed := pyReplaceSlash module_name_delimiter (path base_path m)
    (computed, { m with _name := some computed })

/-- Run a sequence of SetPath calls, stopping at the first failure. -/
def runSetPaths (m : ModuleState) : List String → Except PyErr ModuleState
  | [] => .ok m
  | p :: ps =>
    match SetPath m p with
    | .error e => .error e
    | .ok m2 => runSetPaths m2 ps

end ModuleState

/-- A string prefix repeated k times in front of a base string; prefPow p k
b is p applied k times. -/
def prefPow (p : String) : Nat → String → String
  | 0, base => base
  | k + 1, base => p ++ prefPow p k base

/-- The number of parent-class-name prefixes applied by the ancestor loop
of ToSafeClassName when started from the candidate with k prefixes
already applied: each ancestor matching the running name increments the
count. -/
def disambPowCount (class_name camel : String) : List String → Nat → Nat
  | [], k => k
  | a :: anc, k =>
    if a = prefPow class_name k camel then disambPowCount class_name camel anc (k + 1)
    else disambPowCount class_name camel anc k

theorem charOfNatToNat (n : Nat) (h : n < 55296) : (Char.ofNat n).toNat = n := by
  unfold Char.ofNat
  have hv : n.isValidChar := Or.inl h
  rw [dif_pos hv]
  simp [Char.ofNatAux, Char.toNat, UInt32.toNat, BitVec.toNat_ofNatLt]

/-- toUpper never lands in the lowercase ASCII letter range. -/
theorem charUpperNotLower (c : Char) :
    ¬(97 ≤ (Char.toUpper c).toNat ∧ (Char.toUpper c).toNat ≤ 122) := by
  unfold Char.toUpper
  by_cases h : c.toNat ≥ 97 ∧ c.toNat ≤ 122
  · rw [if_pos h]
    rw [charOfNatToNat (c.toNat - 32) (by omega)]
    omega
  · rw [if_neg h]
    omega

/-- A character whose toLower image is a lowercase ASCII letter is itself
an ASCII letter. -/
theorem charLowerRange (c : Char) (h1 : 97 ≤ (Char.toLower c).toNat)
    (h2 : (Char.toLower c).toNat ≤ 122) :
    (65 ≤ c.toNat ∧ c.toNat ≤ 90) ∨ (97 ≤ c.toNat ∧ c.toNat ≤ 122) := by
  unfold Char.toLower at h1 h2
  by_cases h : c.toNat ≥ 65 ∧ c.toNat ≤ 90
  · left
    omega
  · rw [if_neg h] at h1 h2
    right
    omega

/-- Every reserved class name consists solely of lowercase ASCII letters. -/
theorem reserved_chars_lower :
    ∀ w ∈ JavaLanguageModel.RESERVED_CLASS_NAMES, ∀ c ∈ w.data,
      97 ≤ c.toNat ∧ c.toNat ≤ 122 := by
  decide

/-- Every reserved class name is non-empty. -/
theorem reserved_ne_nil : ∀ w ∈ JavaLanguageModel.RESERVED_CLASS_NAMES, w.data ≠ [] := by
  decide

/-- An ASCII letter is not a camel-case separator. -/
theorem notSep_of_toLower_letter (c : Char) (h1 : 97 ≤ (Char.toLower c).toNat)
    (h2 : (Char.toLower c).toNat ≤ 122) : utilities.isSepChar c = false := by
  have h := charLowerRange c h1 h2
  unfold utilities.isSepChar
  simp only [Bool.or_eq_false_iff, beq_eq_false_iff_ne, ne_eq]
  rcases h with ⟨ha, hb⟩ | ⟨ha, hb⟩ <;> omega

/-- A string whose Python-lowered form is a reserved word starts with a
letter: its data is a cons whose head lowers into the ASCII letter range. -/
theorem mem_reserved_head (s : String)
    (h : lowerStr s ∈ JavaLanguageModel.RESERVED_CLASS_NAMES) :
    ∃ c cs, s.data = c :: cs ∧ 97 ≤ (Char.toLower c).toNat ∧ (Char.toLower c).toNat ≤ 122 := by
  have hchars := reserved_chars_lower _ h
  have hne := reserved_ne_nil _ h
  cases hd : s.data with
  | nil =>
    exfalso
    apply hne
    show (s.data.map Char.toLower) = []
    rw [hd]
    rfl
  | cons c cs =>
    refine ⟨c, cs, rfl, ?_⟩
    have hmem : Char.toLower c ∈ (lowerStr s).data := by
      show Char.toLower c ∈ s.data.map Char.toLower
      rw [hd]
      exact List.mem_map_of_mem _ (List.mem_cons_self _ _)
    exact hchars _ hmem

/-- The first character produced by camel-casing is an uppercased
character. -/
theorem camelChars_head_toUpper :
    ∀ (l : List Char) (d : Char) (ds : List Char),
      utilities.camelChars true l = d :: ds → ∃ c, d = Char.toUpper c := by
  intro l
  induction l with
  | nil => intro d ds h; cases h
  | cons c cs ih =>
    intro d ds h
    unfold utilities.camelChars at h
    by_cases hsep : utilities.isSepChar c = true
    · rw [if_pos hsep] at h
      exact ih d ds h
    · rw [if_neg hsep] at h
      simp only [if_true] at h
      exact ⟨c, (List.cons.injEq .. |>.mp h).1.symm⟩

/-- Appending a string that starts with an uppercased character never
yields a reserved class name. -/
theorem append_upper_not_reserved (a : String) (c : Char) (rest : List Char) :
    (a ++ ⟨Char.toUpper c :: rest⟩) ∉ JavaLanguageModel.RESERVED_CLASS_NAMES := by
  intro hmem
  apply charUpperNotLower c
  apply reserved_chars_lower _ hmem (Char.toUpper c)
  show Char.toUpper c ∈ (a ++ ⟨Char.toUpper c :: rest⟩).data
  rw [String.data_append]
  exact List.mem_append_right _ (List.mem_cons_self _ _)

/-- The camel-cased form of a string that starts with a non-separator is
that character uppercased followed by the camel-cased tail. -/
theorem CamelCase_head (s : String) (c : Char) (cs : List Char)
    (hd : s.data = c :: cs) (hsep : utilities.isSepChar c = false) :
    utilities.CamelCase s = ⟨Char.toUpper c :: utilities.camelChars false cs⟩ := by
  have heq : utilities.camelChars true (c :: cs) =
      Char.toUpper c :: utilities.camelChars false cs := by
    show (if utilities.isSepChar c = true then utilities.camelChars true cs
      else (if true = true then Char.toUpper c else c) :: utilities.camelChars false cs) = _
    rw [hsep]
    simp
  show (⟨utilities.camelChars true s.data⟩ : String) = _
  rw [hd, heq]

/-- Counterexample to C2 as stated: the identifier "n-ew" has lower-cased
camel-case form "new", which is reserved, yet ToMemberName returns the
unprefixed member name "nEw"; and for the plainly reserved "new" the
prefix used is the raw API name value "shopping", not its camel-cased
form. -/
theorem c2_reserved_prefixing_counterexample :
    lowerStr (utilities.CamelCase "n-ew") ∈ JavaLanguageModel.RESERVED_CLASS_NAMES
  ∧ JavaLanguageModel.ToMemberName "n-ew" ⟨"shopping"⟩ = .ok "nEw"
  ∧ ("Shopping".isPrefixOf "nEw") = false
  ∧ JavaLanguageModel.ToMemberName "new" ⟨"shopping"⟩ = .ok "shoppingNew"
  ∧ "shoppingNew" ≠ utilities.CamelCase "shopping" ++ utilities.CamelCase "new" := by
  refine ⟨by decide, by decide, by decide, by decide, by decide⟩

/-- Claim C2 amended: ToMemberName tests the lower-cased original identifier
against the reserved set and prepends the raw API name value; ToSafeClassName
(with no parent) tests the lower-cased camel-cased identifier and prepends
the camel-cased API name; in both cases the returned prefixed name is
itself never in the reserved set. -/
theorem c2_reserved_prefixing :
    (∀ (s : String) (the_api : Api),
        lowerStr s ∈ JavaLanguageModel.RESERVED_CLASS_NAMES →
        JavaLanguageModel.ToMemberName s the_api =
          .ok (the_api.name ++ utilities.CamelCase s)
        ∧ (the_api.name ++ utilities.CamelCase s) ∉ JavaLanguageModel.RESERVED_CLASS_NAMES)
  ∧ (∀ (s : String) (the_api : Api),
        lowerStr (utilities.CamelCase s) ∈ JavaLanguageModel.RESERVED_CLASS_NAMES →
        JavaLanguageModel.ToSafeClassName s the_api none =
          utilities.CamelCase the_api.name ++ utilities.CamelCase s
        ∧ (utilities.CamelCase the_api.name ++ utilities.CamelCase s) ∉
            JavaLanguageModel.RESERVED_CLASS_NAMES) := by
  constructor
  · intro s the_api h
    obtain ⟨c, cs, hd, h1, h2⟩ := mem_reserved_head s h
    have hsep := notSep_of_toLower_letter c h1 h2
    have hcc := CamelCase_head s c cs hd hsep
    constructor
    · unfold JavaLanguageModel.ToMemberName
      rw [if_pos h]
    · rw [hcc]
      exact append_upper_not_reserved the_api.name c _
  · intro s the_api h
    obtain ⟨d, ds, hd, h1, h2⟩ := mem_reserved_head (utilities.CamelCase s) h
    obtain ⟨c, hc⟩ := camelChars_head_toUpper s.data d ds hd
    have hcc : utilities.CamelCase s = ⟨Char.toUpper c :: ds⟩ := by
      show (⟨utilities.camelChars true s.data⟩ : String) = _
      rw [show utilities.camelChars true s.data = d :: ds from hd, hc]
    constructor
    · unfold JavaLanguageModel.ToSafeClassName
      simp only []
      rw [if_pos h]
    · rw [hcc]
      exact append_upper_not_reserved (utilities.CamelCase the_api.name) c _

/-- Witness for C2 amended: the reserved identifier "new" under the API
"shopping" through both naming methods. -/
theorem c2_reserved_prefixing_witness :
    (JavaLanguageModel.ToMemberName "new" ⟨"shopping"⟩ =
        .ok ("shopping" ++ utilities.CamelCase "new")
      ∧ ("shopping" ++ utilities.CamelCase "new") ∉ JavaLanguageModel.RESERVED_CLASS_NAMES)
  ∧ (JavaLanguageModel.ToSafeClassName "new" ⟨"shopping"⟩ none =
        utilities.CamelCase "shopping" ++ utilities.CamelCase "new"
      ∧ (utilities.CamelCase "shopping" ++ utilities.CamelCase "new") ∉
          JavaLanguageModel.RESERVED_CLASS_NAMES) := by
  constructor
  · exact c2_reserved_prefixing.1 "new" ⟨"shopping"⟩ (by decide)
  · exact c2_reserved_prefixing.2 "new" ⟨"shopping"⟩ (by decide)

theorem disambiguate_prefPow (p camel : String) :
    ∀ (anc : List String) (k : Nat),
      JavaLanguageModel.disambiguate p anc (prefPow p k camel) =
        prefPow p (disambPowCount p camel anc k) camel := by
  intro anc
  induction anc with
  | nil => intro k; rfl
  | cons a anc ih =>
    intro k
    show JavaLanguageModel.disambiguate p anc
        (if a = prefPow p k camel then p ++ prefPow p k camel else prefPow p k camel) =
      prefPow p (if a = prefPow p k camel then disambPowCount p camel anc (k + 1)
        else disambPowCount p camel anc k) camel
    by_cases ha : a = prefPow p k camel
    · rw [if_pos ha, if_pos ha]
      have hstep : p ++ prefPow p k camel = prefPow p (k + 1) camel := rfl
      rw [hstep]
      exact ih (k + 1)
    · rw [if_neg ha, if_neg ha]
      exact ih k

theorem disambPowCount_mono (p camel : String) :
    ∀ (anc : List String) (k : Nat), k ≤ disambPowCount p camel anc k := by
  intro anc
  induction anc with
  | nil => intro k; exact le_rfl
  | cons a anc ih =>
    intro k
    show k ≤ if a = prefPow p k camel then disambPowCount p camel anc (k + 1)
      else disambPowCount p camel anc k
    by_cases ha : a = prefPow p k camel
    · rw [if_pos ha]
      exact le_trans (by omega) (ih (k + 1))
    · rw [if_neg ha]
      exact ih k

theorem disambPowCount_pos (p camel : String) :
    ∀ (anc : List String) (k : Nat),
      (camel ∈ anc ∨ 1 ≤ k) → 1 ≤ disambPowCount p camel anc k := by
  intro anc
  induction anc with
  | nil =>
    intro k h
    rcases h with h | h
    · cases h
    · exact h
  | cons a anc ih =>
    intro k h
    show 1 ≤ if a = prefPow p k camel then disambPowCount p camel anc (k + 1)
      else disambPowCount p camel anc k
    by_cases ha : a = prefPow p k camel
    · rw [if_pos ha]
      exact ih (k + 1) (Or.inr (by omega))
    · rw [if_neg ha]
      rcases h with hmem | hk
      · rcases List.mem_cons.mp hmem with heq | hmem2
        · have hk : 1 ≤ k := by
            rcases Nat.eq_zero_or_pos k with rfl | h1
            · exact absurd heq.symm ha
            · exact h1
          exact ih k (Or.inr hk)
        · exact ih k (Or.inl hmem2)
      · exact ih k (Or.inr hk)

/-- Counterexample to C9 as stated: under a parent "Outer" whose chain
carries the class names "Item" and "Outer", the two distinct original
names "item" and "outer-item" both resolve to the class name "OuterItem"
— the disambiguation only separates a class from its ancestors, not from
arbitrary other classes. -/
theorem c9_ToSafeClassName_counterexample :
    JavaLanguageModel.ToSafeClassName "item" ⟨"api"⟩ (some ⟨"Outer", ["Item", "Outer"]⟩) =
      "OuterItem"
  ∧ JavaLanguageModel.ToSafeClassName "outer-item" ⟨"api"⟩
      (some ⟨"Outer", ["Item", "Outer"]⟩) = "OuterItem"
  ∧ "item" ≠ "outer-item" := by
  refine ⟨by decide, by decide, by decide⟩

/-- Claim C9 amended: when the camel-cased candidate equals an
already-assigned safe class name on the parent full_path, ToSafeClassName
prefixes the candidate with the immediate parent class name (at least
once, re-checking each later ancestor against the updated name) before
the reserved-word check; the disambiguation does not guarantee that two
classes with distinct original names receive distinct class names. -/
theorem c9_ToSafeClassName_ancestor_disambiguation :
    ∀ (s : String) (the_api : Api) (p : JavaLanguageModel.ParentCtx),
      utilities.CamelCase s ∈ p.full_path_safeClassNames →
      1 ≤ disambPowCount p.class_name (utilities.CamelCase s) p.full_path_safeClassNames 0
      ∧ JavaLanguageModel.ToSafeClassName s the_api (some p) =
          (if lowerStr (prefPow p.class_name
              (disambPowCount p.class_name (utilities.CamelCase s)
                p.full_path_safeClassNames 0) (utilities.CamelCase s)) ∈
              JavaLanguageModel.RESERVED_CLASS_NAMES then
            utilities.CamelCase the_api.name ++ utilities.CamelCase s
          else prefPow p.class_name
            (disambPowCount p.class_name (utilities.CamelCase s)
              p.full_path_safeClassNames 0) (utilities.CamelCase s)) := by
  intro s the_api p hmem
  refine ⟨disambPowCount_pos p.class_name (utilities.CamelCase s)
    p.full_path_safeClassNames 0 (Or.inl hmem), ?_⟩
  have he := disambiguate_prefPow p.class_name (utilities.CamelCase s)
    p.full_path_safeClassNames 0
  unfold JavaLanguageModel.ToSafeClassName
  simp only []
  rw [show JavaLanguageModel.disambiguate p.class_name p.full_path_safeClassNames
      (utilities.CamelCase s) = prefPow p.class_name
        (disambPowCount p.class_name (utilities.CamelCase s)
          p.full_path_safeClassNames 0) (utilities.CamelCase s) from he]

/-- Witness for C9 amended: the candidate "item" under parent "Outer" with
ancestor class name "Item" is prefixed exactly once and yields
"OuterItem". -/
theorem c9_ToSafeClassName_ancestor_disambiguation_witness :
    (1 ≤ disambPowCount "Outer" (utilities.CamelCase "item") ["Item", "Outer"] 0
      ∧ JavaLanguageModel.ToSafeClassName "item" ⟨"api"⟩
          (some ⟨"Outer", ["Item", "Outer"]⟩) =
        (if lowerStr (prefPow "Outer"
            (disambPowCount "Outer" (utilities.CamelCase "item") ["Item", "Outer"] 0)
            (utilities.CamelCase "item")) ∈ JavaLanguageModel.RESERVED_CLASS_NAMES then
          utilities.CamelCase "api" ++ utilities.CamelCase "item"
        else prefPow "Outer"
          (disambPowCount "Outer" (utilities.CamelCase "item") ["Item", "Outer"] 0)
          (utilities.CamelCase "item")))
  ∧ disambPowCount "Outer" (utilities.CamelCase "item") ["Item", "Outer"] 0 = 1 := by
  constructor
  · exact c9_ToSafeClassName_ancestor_disambiguation "item" ⟨"api"⟩
      ⟨"Outer", ["Item", "Outer"]⟩ (by decide)
  · decide

/-- Claim C1: for a schema dictionary whose (type, format) pair is in the mapping
table, GetCodeTypeFromDictionary returns exactly the mapped target type
name; for an absent pair it returns the camel-cased json type; a missing
"type" key behaves as if the type were "string". The embedding is a total
function, so no code path raises. Stated for both JavaLanguageModel and
Java14LanguageModel. -/
theorem c1_GetCodeTypeFromDictionary_spec :
    (∀ (dd : DefDict) (t : String) (en : String × ImportDefinition),
        dd "type" = some t →
        JavaLanguageModel.TYPE_FORMAT_TO_DATATYPE_AND_IMPORTS.lookup (t, dd "format") = some en →
        JavaLanguageModel.GetCodeTypeFromDictionary dd = en.1)
  ∧ (∀ (dd : DefDict) (t : String),
        dd "type" = some t →
        JavaLanguageModel.TYPE_FORMAT_TO_DATATYPE_AND_IMPORTS.lookup (t, dd "format") = none →
        JavaLanguageModel.GetCodeTypeFromDictionary dd = utilities.CamelCase t)
  ∧ (∀ dd : DefDict, dd "type" = none →
        JavaLanguageModel.GetCodeTypeFromDictionary dd =
          JavaLanguageModel.GetCodeTypeFromDictionary
            (fun k => if k = "type" then some "string" else dd k))
  ∧ (∀ (dd : DefDict) (t dt : String),
        dd "type" = some t →
        Java14LanguageModel.TYPE_FORMAT_TO_DATATYPE.lookup (t, dd "format") = some dt →
        Java14LanguageModel.GetCodeTypeFromDictionary dd = dt)
  ∧ (∀ (dd : DefDict) (t : String),
        dd "type" = some t →
        Java14LanguageModel.TYPE_FORMAT_TO_DATATYPE.lookup (t, dd "format") = none →
        Java14LanguageModel.GetCodeTypeFromDictionary dd = utilities.CamelCase t)
  ∧ (∀ dd : DefDict, dd "type" = none →
        Java14LanguageModel.GetCodeTypeFromDictionary dd =
          Java14LanguageModel.GetCodeTypeFromDictionary
            (fun k => if k = "type" then some "string" else dd k)) := by
  refine ⟨?_, ?_, ?_, ?_, ?_, ?_⟩
  · intro dd t en h1 h2
    unfold JavaLanguageModel.GetCodeTypeFromDictionary
    rw [h1]
    simp [h2]
  · intro dd t h1 h2
    unfold JavaLanguageModel.GetCodeTypeFromDictionary
    rw [h1]
    simp [h2]
  · intro dd h
    unfold JavaLanguageModel.GetCodeTypeFromDictionary
    rw [h]
    simp
  · intro dd t dt h1 h2
    unfold Java14LanguageModel.GetCodeTypeFromDictionary
    rw [h1]
    simp [h2]
  · intro dd t h1 h2
    unfold Java14LanguageModel.GetCodeTypeFromDictionary
    rw [h1]
    simp [h2]
  · intro dd h
    unfold Java14LanguageModel.GetCodeTypeFromDictionary
    rw [h]
    simp

/-- Witness for C1 at concrete dictionaries: a mapped pair, a fallback, and
a missing type key. -/
theorem c1_GetCodeTypeFromDictionary_witness :
    JavaLanguageModel.GetCodeTypeFromDictionary
      (fun k => if k = "type" then some "integer" else
        if k = "format" then some "int32" else none) = "Integer"
  ∧ Java14LanguageModel.GetCodeTypeFromDictionary
      (fun k => if k = "type" then some "frob" else none) = "Frob"
  ∧ JavaLanguageModel.GetCodeTypeFromDictionary (fun _ => none) =
      JavaLanguageModel.GetCodeTypeFromDictionary
        (fun k => if k = "type" then some "string" else none) := by
  refine ⟨?_, ?_, ?_⟩
  · have h := c1_GetCodeTypeFromDictionary_spec.1
      (fun k => if k = "type" then some "integer" else
        if k = "format" then some "int32" else none)
      "integer" ("Integer", ⟨["java.lang.Integer"], []⟩) rfl (by decide)
    simpa using h
  · have h := c1_GetCodeTypeFromDictionary_spec.2.2.2.2.1
      (fun k => if k = "type" then some "frob" else none) "frob" rfl (by decide)
    rw [h]
    decide
  · exact c1_GetCodeTypeFromDictionary_spec.2.2.1 (fun _ => none) rfl

/-- Claim C7: the _Int renderers format an integer literal by the resolved target
type name: the 64-bit Long target gets an "L" suffix, the 16- and 32-bit
targets render the plain digits, and any type name outside the table
yields a ValueError whose message contains both the literal value and the
unrecognized type name. Stated for JavaLanguageModel and
Java14LanguageModel. -/
theorem c7_Int_literal_rendering :
    (∀ v : Int,
        JavaLanguageModel._Int ⟨v, "Long"⟩ = .ok (toString v ++ "L")
      ∧ JavaLanguageModel._Int ⟨v, "Integer"⟩ = .ok (toString v)
      ∧ JavaLanguageModel._Int ⟨v, "Short"⟩ = .ok (toString v)
      ∧ Java14LanguageModel._Int ⟨v, "java.lang.Long"⟩ = .ok (toString v ++ "L")
      ∧ Java14LanguageModel._Int ⟨v, "java.lang.Integer"⟩ = .ok (toString v)
      ∧ Java14LanguageModel._Int ⟨v, "java.lang.Short"⟩ = .ok (toString v))
  ∧ (∀ (v : Int) (t : String),
        JavaLanguageModel.code_types.lookup t = none →
        JavaLanguageModel._Int ⟨v, t⟩ = .error (.valueError (intErrMsg v t)))
  ∧ (∀ (v : Int) (t : String),
        Java14LanguageModel.code_types.lookup t = none →
        Java14LanguageModel._Int ⟨v, t⟩ = .error (.valueError (intErrMsg v t)))
  ∧ (∀ (v : Int) (t : String),
        (∃ a b, intErrMsg v t = a ++ (toString v ++ b))
      ∧ (∃ a b, intErrMsg v t = a ++ (t ++ b))) := by
  refine ⟨?_, ?_, ?_, ?_⟩
  · intro v
    exact ⟨rfl, rfl, rfl, rfl, rfl, rfl⟩
  · intro v t h
    unfold JavaLanguageModel._Int
    rw [h]
  · intro v t h
    unfold Java14LanguageModel._Int
    rw [h]
  · intro v t
    constructor
    · exact ⟨"Provided DataValue (",
        ") does not present an appropriate Java annotated code type (" ++ (t ++ ")."), rfl⟩
    · refine ⟨"Provided DataValue (" ++
        (toString v ++ ") does not present an appropriate Java annotated code type ("),
        ").", ?_⟩
      unfold intErrMsg
      simp [String.append_assoc]

/-- Witness for C7: the literal 5 as a Long renders as "5L", as an Integer
as "5", and the unmapped type name "Float" raises the typed ValueError. -/
theorem c7_Int_literal_rendering_witness :
    JavaLanguageModel._Int ⟨5, "Long"⟩ = .ok "5L"
  ∧ JavaLanguageModel._Int ⟨5, "Integer"⟩ = .ok "5"
  ∧ JavaLanguageModel._Int ⟨5, "Float"⟩ = .error (.valueError (intErrMsg 5 "Float")) := by
  refine ⟨(c7_Int_literal_rendering.1 5).1, (c7_Int_literal_rendering.1 5).2.1, ?_⟩
  exact c7_Int_literal_rendering.2.1 5 "Float" (by decide)

/-- Claim C8: for an element whose leaf data type, after stripping array and map
wrappers, has json type "string" and format "int64" or "uint64",
_HandleJsonString sets the requiresJsonString template marker, the Java
mapping table resolves the pair to the designated 64-bit types Long and
UnsignedLong, and the table entry itself carries the requiresJsonString
template value. -/
theorem c8_HandleJsonString_marker :
    ∀ (e : Element) (jf : String),
      leafTypeAndFormat e.data_type = ("string", some jf) →
      (jf = "int64" ∨ jf = "uint64") →
      ((Java14Generator._HandleJsonString e).vals "requiresJsonString" = some (.bool true))
      ∧ JavaLanguageModel.GetCodeTypeFromDictionary
          (fun k => if k = "type" then some "string" else
            if k = "format" then some jf else none) =
          (if jf = "int64" then "Long" else "UnsignedLong")
      ∧ (JavaLanguageModel.TYPE_FORMAT_TO_DATATYPE_AND_IMPORTS.lookup ("string", some jf)).map
          (fun en => en.2.template_values) = some ["requiresJsonString"] := by
  intro e jf h1 h2
  have hmark : (Java14Generator._HandleJsonString e).vals "requiresJsonString" =
      some (.bool true) := by
    unfold Java14Generator._HandleJsonString
    rw [h1]
    rcases h2 with h2 | h2 <;> subst h2 <;> simp [Element.SetTemplateValue]
  refine ⟨hmark, ?_, ?_⟩ <;> rcases h2 with h2 | h2 <;> subst h2 <;> decide

/-- Witness for C8: a property whose data type is an array of
string-with-int64-format is annotated and resolves to Long. -/
theorem c8_HandleJsonString_marker_witness :
    (Java14Generator._HandleJsonString
      ⟨.array (.scalar "string" (some "int64")), fun _ => none⟩).vals "requiresJsonString" =
        some (.bool true)
  ∧ JavaLanguageModel.GetCodeTypeFromDictionary
      (fun k => if k = "type" then some "string" else
        if k = "format" then some "int64" else none) = (if "int64" = "int64" then "Long" else "UnsignedLong") := by
  have h := c8_HandleJsonString_marker
    ⟨.array (.scalar "string" (some "int64")), fun _ => none⟩ "int64" rfl (Or.inl rfl)
  exact ⟨h.1, h.2.1⟩

/-- Claim C10: whenever fullClassName terminates, it either propagates the
missing-module error or returns the module name, the class-name delimiter
and the parent-chain-relative class name concatenated; the unqualified
branch of the source is unreachable because a resolved Module is always
truthy. -/
theorem c10_fullClassName_always_qualified :
    ∀ (f : CodeObject.CodeForest) (delim : String) (fuel n : Nat) (r : Except PyErr String),
      CodeObject.fullClassName f delim fuel n = some r →
      (∃ e, r = .error e ∧ CodeObject.moduleOf f fuel n = some (.error e))
      ∨ (∃ m rel, CodeObject.moduleOf f fuel n = some (.ok m)
          ∧ CodeObject.RelativeClassName f delim fuel n none = some rel
          ∧ r = .ok (f.moduleName m ++ delim ++ rel)) := by
  intro f delim fuel n r h
  unfold CodeObject.fullClassName at h
  cases hm : CodeObject.moduleOf f fuel n with
  | none => rw [hm] at h; cases h
  | some res =>
    rw [hm] at h
    cases res with
    | error e =>
      left
      refine ⟨e, ?_, rfl⟩
      cases h
      rfl
    | ok m =>
      right
      simp only [CodeObject.moduleTruthy, if_true] at h
      cases hrel : CodeObject.RelativeClassName f delim fuel n none with
      | none => rw [hrel] at h; cases h
      | some rel =>
        rw [hrel] at h
        cases h
        exact ⟨m, rel, rfl, rfl, rfl⟩

/-- Witness for C10: a two-node chain resolves to a module-qualified name,
and a moduleless node surfaces the error. -/
theorem c10_fullClassName_always_qualified_witness :
    ((∃ e, (Except.ok "com.example.Foo" : Except PyErr String) = .error e ∧
        CodeObject.moduleOf
          ⟨fun _ => none, fun _ => [], fun k => if k = 0 then some 7 else none,
            fun _ k => if k = "className" then some "Foo" else none,
            fun _ => "com.example"⟩ 1 0 = some (.error e))
      ∨ (∃ m rel,
          CodeObject.moduleOf
            ⟨fun _ => none, fun _ => [], fun k => if k = 0 then some 7 else none,
              fun _ k => if k = "className" then some "Foo" else none,
              fun _ => "com.example"⟩ 1 0 = some (.ok m)
          ∧ CodeObject.RelativeClassName
              ⟨fun _ => none, fun _ => [], fun k => if k = 0 then some 7 else none,
                fun _ k => if k = "className" then some "Foo" else none,
                fun _ => "com.example"⟩ "." 1 0 none = some rel
          ∧ (Except.ok "com.example.Foo" : Except PyErr String) =
              .ok ("com.example" ++ "." ++ rel))) := by
  exact c10_fullClassName_always_qualified
    ⟨fun _ => none, fun _ => [], fun k => if k = 0 then some 7 else none,
      fun _ k => if k = "className" then some "Foo" else none,
      fun _ => "com.example"⟩ "." 1 0 (.ok "com.example.Foo") rfl

/-- Counterexample to C4 as stated: with an empty base path and no path
segment, the name property computes the empty string; the memoized empty
name is falsy, so a SetPath after this read of name still succeeds instead
of failing. -/
theorem c4_SetPath_counterexample :
    (ModuleState.readName "." "" ⟨none, none⟩).1 = ""
  ∧ ModuleState.SetPath (ModuleState.readName "." "" ⟨none, none⟩).2 "model" =
      .ok ⟨some "model", some ""⟩ := by
  exact ⟨rfl, rfl⟩

/-- Claim C4 amended: SetPath fails exactly while the memoized name is truthy;
a read of name returning a non-empty string freezes the module (later
SetPath calls always fail and later reads return the cached name
unchanged); before any read of name every SetPath succeeds and the name
then computed is the last path set, slash-replaced by the module-name
delimiter. -/
theorem c4_SetPath_freeze :
    (∀ m : ModuleState, truthyOpt m._name = true →
        (∀ p, ModuleState.SetPath m p =
            .error (.valueError "SetPath called after first use of name property"))
      ∧ (∀ d b, ModuleState.readName d b m = (m._name.getD "", m)))
  ∧ (∀ (m : ModuleState) (d b : String), (ModuleState.readName d b m).1 ≠ "" →
        truthyOpt ((ModuleState.readName d b m).2)._name = true)
  ∧ (∀ m : ModuleState, m._name = none → ∀ ps : List String, ps ≠ [] →
        ModuleState.runSetPaths m ps = .ok ⟨some (ps.getLastD ""), none⟩)
  ∧ (∀ (d b last : String),
        (ModuleState.readName d b ⟨some last, none⟩).1 =
          pyReplaceSlash d (ModuleState.path b ⟨some last, none⟩)) := by
  refine ⟨?_, ?_, ?_, ?_⟩
  · intro m h
    constructor
    · intro p
      unfold ModuleState.SetPath
      rw [h]
      rfl
    · intro d b
      unfold ModuleState.readName
      rw [h]
      rfl
  · intro m d b h
    by_cases ht : truthyOpt m._name = true
    · unfold ModuleState.readName
      simp [ht]
    · have ht2 : truthyOpt m._name = false := by simpa using ht
      unfold ModuleState.readName at h ⊢
      simp only [ht2, Bool.false_eq_true, if_false] at h ⊢
      simp only [truthyOpt, bne_iff_ne, ne_eq, decide_eq_true_eq]
      exact h
  · have key : ∀ (ps : List String) (p : String) (mp : Option String),
        ModuleState.runSetPaths ⟨mp, none⟩ (p :: ps) =
          .ok ⟨some ((p :: ps).getLastD ""), none⟩ := by
      intro ps
      induction ps with
      | nil => intro p mp; rfl
      | cons q qs ih =>
        intro p mp
        show ModuleState.runSetPaths ⟨some p, none⟩ (q :: qs) = _
        rw [ih q (some p)]
        simp [List.getLastD_cons]
    intro m hm ps hne
    obtain ⟨mp, mn⟩ := m
    have hmn : mn = none := hm
    subst hmn
    cases ps with
    | nil => exact absurd rfl hne
    | cons p ps => exact key ps p mp
  · intro d b last
    rfl

/-- Witness for C4 amended: a module frozen by a non-empty name read
rejects SetPath, and a fresh module accepts a sequence of SetPath calls
ending at the last path. -/
theorem c4_SetPath_freeze_witness :
    (ModuleState.SetPath (ModuleState.readName "." "com/google" ⟨some "model", none⟩).2 "x" =
        .error (.valueError "SetPath called after first use of name property"))
  ∧ ModuleState.runSetPaths ⟨none, none⟩ ["a", "b"] = .ok ⟨some (["a", "b"].getLastD ""), none⟩
  ∧ (ModuleState.readName "." "com/google" ⟨some "model", none⟩).1 =
      pyReplaceSlash "." (ModuleState.path "com/google" ⟨some "model", none⟩) := by
  refine ⟨?_, ?_, c4_SetPath_freeze.2.2.2 "." "com/google" "model"⟩
  · have hf := c4_SetPath_freeze.2.1 ⟨some "model", none⟩ "." "com/google" (by decide)
    exact (c4_SetPath_freeze.1 _ hf).1 "x"
  · exact c4_SetPath_freeze.2.2.1 ⟨none, none⟩ rfl ["a", "b"] (by decide)

/-- Counterexample to C5 as stated: a CodeObject with empty wireName and no
reachable language model caches the empty string on the first read of
codeName; the cached empty string is falsy, so after SetLanguageModel a
second read recomputes through ToMemberName, which raises IndexError
instead of returning the cached value. -/
theorem c5_codeName_counterexample :
    (CodeObject.codeName ⟨"api"⟩
        ⟨fun k => if k = "wireName" then some "" else none, none⟩).map Prod.fst = .ok ""
  ∧ CodeObject.codeName ⟨"api"⟩
      (CodeObject.SetLanguageModel
        (CodeObject.CObj.SetTemplateValue
          ⟨fun k => if k = "wireName" then some "" else none, none⟩ "codeName" "")
        (some CodeObject.javaLanguageModelFns)) = .error .indexError := by
  exact ⟨rfl, rfl⟩

/-- Claim C5 amended: the first read of codeName computes the name from wireName
through the active language model ToMemberName (or returns the wire name
unchanged without a model) and caches it; any later read returns the
cached value unchanged, even after SetLanguageModel, provided the cached
value is non-empty — an empty cached codeName is falsy and is recomputed. -/
theorem c5_codeName_caching :
    (∀ (the_api : Api) (o : CodeObject.CObj) (v : String),
        o.vals "codeName" = some v → v ≠ "" →
        CodeObject.codeName the_api o = .ok (v, o))
  ∧ (∀ (the_api : Api) (o : CodeObject.CObj) (w : String),
        o.vals "codeName" = none → o.vals "wireName" = some w →
        (∀ m cn, o.language_model = some m → m.toMemberName w the_api = .ok cn →
            CodeObject.codeName the_api o = .ok (cn, o.SetTemplateValue "codeName" cn))
        ∧ (o.language_model = none →
            CodeObject.codeName the_api o = .ok (w, o.SetTemplateValue "codeName" w)))
  ∧ (∀ (the_api : Api) (o : CodeObject.CObj) (v : String) (o2 : CodeObject.CObj),
        CodeObject.codeName the_api o = .ok (v, o2) → v ≠ "" →
        ∀ lm2, CodeObject.codeName the_api (CodeObject.SetLanguageModel o2 lm2) =
          .ok (v, CodeObject.SetLanguageModel o2 lm2)) := by
  have cache_read : ∀ (the_api : Api) (o : CodeObject.CObj) (v : String),
      o.vals "codeName" = some v → v ≠ "" →
      CodeObject.codeName the_api o = .ok (v, o) := by
    intro the_api o v h hv
    have ht : truthyOpt (o.vals "codeName") = true := by
      rw [h]; simpa [truthyOpt] using hv
    unfold CodeObject.codeName
    rw [ht]
    simp [h]
  refine ⟨cache_read, ?_, ?_⟩
  · intro the_api o w h1 h2
    constructor
    · intro m cn hm hcn
      unfold CodeObject.codeName
      rw [h1]
      simp only [truthyOpt, Bool.false_eq_true, if_false]
      rw [h2]
      simp only []
      rw [hm]
      simp only []
      rw [hcn]
    · intro hm
      unfold CodeObject.codeName
      rw [h1]
      simp only [truthyOpt, Bool.false_eq_true, if_false]
      rw [h2]
      simp only []
      rw [hm]
  · intro the_api o v o2 hread hv lm2
    -- after a successful read, o2 caches v
    have hcache : o2.vals "codeName" = some v := by
      unfold CodeObject.codeName at hread
      by_cases ht : truthyOpt (o.vals "codeName") = true
      · rw [ht] at hread
        simp only [if_true] at hread
        cases hread
        cases ho : o.vals "codeName" with
        | none => rw [ho] at ht; simp [truthyOpt] at ht
        | some s => rfl
      · have ht2 : truthyOpt (o.vals "codeName") = false := by simpa using ht
        rw [ht2] at hread
        simp only [Bool.false_eq_true, if_false] at hread
        cases hw : o.vals "wireName" with
        | none =>
          simp only [hw] at hread
          cases hread
        | some w =>
          simp only [hw] at hread
          cases hlm : o.language_model with
          | none =>
            simp only [hlm] at hread
            cases hread
            simp [CodeObject.CObj.SetTemplateValue]
          | some m =>
            simp only [hlm] at hread
            cases hmn : m.toMemberName w the_api with
            | error e =>
              simp only [hmn] at hread
              cases hread
            | ok cn =>
              simp only [hmn] at hread
              cases hread
              simp [CodeObject.CObj.SetTemplateValue]
    have this2 : (CodeObject.SetLanguageModel o2 lm2).vals "codeName" = some v := hcache
    exact cache_read the_api _ v this2 hv

/-- Witness for C5 amended: a non-empty cached codeName survives a read and
a language-model swap. -/
theorem c5_codeName_caching_witness :
    CodeObject.codeName ⟨"api"⟩
      ⟨fun k => if k = "codeName" then some "foo" else none, none⟩ =
      .ok ("foo", ⟨fun k => if k = "codeName" then some "foo" else none, none⟩)
  ∧ CodeObject.codeName ⟨"api"⟩
      (CodeObject.SetLanguageModel
        ((⟨fun k => if k = "wireName" then some "foo" else none,
            some CodeObject.javaLanguageModelFns⟩ :
          CodeObject.CObj).SetTemplateValue "codeName" "foo") none) =
      .ok ("foo", CodeObject.SetLanguageModel
        ((⟨fun k => if k = "wireName" then some "foo" else none,
            some CodeObject.javaLanguageModelFns⟩ :
          CodeObject.CObj).SetTemplateValue "codeName" "foo") none) := by
  constructor
  · exact c5_codeName_caching.1 ⟨"api"⟩
      ⟨fun k => if k = "codeName" then some "foo" else none, none⟩ "foo" rfl (by decide)
  · exact c5_codeName_caching.2.2 ⟨"api"⟩
      ⟨fun k => if k = "wireName" then some "foo" else none,
        some CodeObject.javaLanguageModelFns⟩
      "foo" _ rfl (by decide) none

/-- Claim C6: reading the module property returns the module of the first node on
the parent chain (the object first) carrying an assigned Module; if the
chain reaches the root with no Module assigned anywhere, the read fails
with the ValueError raised at the root, never returning a default. -/
theorem c6_module_resolution :
    ∀ (f : CodeObject.CodeForest) (fuel n : Nat) (l : List Nat),
      CodeObject.chainToRoot f fuel n = some l →
      (∀ m, l.findSome? f.module = some m →
          CodeObject.moduleOf f fuel n = some (.ok m))
      ∧ (l.findSome? f.module = none →
          CodeObject.moduleOf f fuel n =
            some (.error (.valueError (CodeObject.moduleErrMsg f (l.getLastD n))))) := by
  intro f fuel
  induction fuel with
  | zero => intro n l h; cases h
  | succ fuel ih =>
    intro n l h
    unfold CodeObject.chainToRoot at h
    cases hp : f.parent n with
    | none =>
      rw [hp] at h
      cases h
      cases hm : f.module n with
      | some m =>
        constructor
        · intro m2 hm2
          rw [List.findSome?_cons, hm] at hm2
          cases hm2
          unfold CodeObject.moduleOf
          rw [hm]
        · intro hnone
          rw [List.findSome?_cons, hm] at hnone
          cases hnone
      | none =>
        constructor
        · intro m2 hm2
          rw [List.findSome?_cons, hm] at hm2
          simp at hm2
        · intro _
          unfold CodeObject.moduleOf
          rw [hm, hp]
          rfl
    | some p =>
      simp only [hp] at h
      cases hc : CodeObject.chainToRoot f fuel p with
      | none => rw [hc] at h; cases h
      | some l0 =>
        rw [hc] at h
        cases h
        have hl0 := ih p l0 hc
        have hl0ne : l0 ≠ [] := by
          cases fuel with
          | zero => cases hc
          | succ fuel2 =>
            unfold CodeObject.chainToRoot at hc
            cases hp2 : f.parent p with
            | none => simp only [hp2] at hc; cases hc; simp
            | some r =>
              simp only [hp2] at hc
              cases hc2 : CodeObject.chainToRoot f fuel2 r with
              | none => rw [hc2] at hc; cases hc
              | some l1 => rw [hc2] at hc; cases hc; simp
        cases hm : f.module n with
        | some m =>
          constructor
          · intro m2 hm2
            rw [List.findSome?_cons, hm] at hm2
            cases hm2
            unfold CodeObject.moduleOf
            rw [hm]
          · intro hnone
            rw [List.findSome?_cons, hm] at hnone
            cases hnone
        | none =>
          have hred : CodeObject.moduleOf f (fuel + 1) n = CodeObject.moduleOf f fuel p := by
            show (match f.module n with
              | some m => some (Except.ok m)
              | none =>
                match f.parent n with
                | some p => CodeObject.moduleOf f fuel p
                | none =>
                  some (.error (.valueError (CodeObject.moduleErrMsg f n)))) =
              CodeObject.moduleOf f fuel p
            rw [hm, hp]
          constructor
          · intro m2 hm2
            rw [List.findSome?_cons, hm] at hm2
            rw [hred]
            exact hl0.1 m2 hm2
          · intro hnone
            rw [List.findSome?_cons, hm] at hnone
            rw [hred]
            have := hl0.2 hnone
            -- align the getLastD defaults on the nonempty chain l0
            cases l0 with
            | nil => exact absurd rfl hl0ne
            | cons a t =>
              rw [List.getLastD_cons, List.getLastD_cons]
              rw [List.getLastD_cons] at this
              exact this

/-- Witness for C6: a child-parent chain where only the parent carries a
module resolves to that module, and a moduleless chain raises. -/
theorem c6_module_resolution_witness :
    (CodeObject.moduleOf
        ⟨fun n => if n = 1 then some 0 else none, fun _ => [],
          fun n => if n = 0 then some 5 else none, fun _ _ => none, fun _ => ""⟩ 2 1 =
      some (.ok 5))
  ∧ (CodeObject.moduleOf
        ⟨fun n => if n = 1 then some 0 else none, fun _ => [],
          fun _ => none, fun _ _ => none, fun _ => ""⟩ 2 1 =
      some (.error (.valueError (CodeObject.moduleErrMsg
        ⟨fun n => if n = 1 then some 0 else none, fun _ => [],
          fun _ => none, fun _ _ => none, fun _ => ""⟩ ([1, 0].getLastD 1))))) := by
  constructor
  · exact (c6_module_resolution
      ⟨fun n => if n = 1 then some 0 else none, fun _ => [],
        fun n => if n = 0 then some 5 else none, fun _ _ => none, fun _ => ""⟩
      2 1 [1, 0] rfl).1 5 rfl
  · exact (c6_module_resolution
      ⟨fun n => if n = 1 then some 0 else none, fun _ => [],
        fun _ => none, fun _ _ => none, fun _ => ""⟩
      2 1 [1, 0] rfl).2 rfl

theorem parent_eraseChild (f : CodeObject.CodeForest) (self : Nat) :
    (CodeObject.eraseChild f self).parent = f.parent := by
  unfold CodeObject.eraseChild
  cases f.parent self <;> rfl

theorem count_self_eraseChild (f : CodeObject.CodeForest)
    (hinv : CodeObject.ChildListInvariant f) (self n : Nat) :
    ((CodeObject.eraseChild f self).children n).count self = 0 := by
  have hc := hinv self n
  unfold CodeObject.eraseChild
  cases hp : f.parent self with
  | none =>
    rw [hp] at hc
    simpa using hc
  | some old =>
    rw [hp] at hc
    by_cases hn : n = old
    · subst hn
      simp only [eq_self_iff_true, if_true]
      rw [List.count_erase_self, hc]
      simp
    · simp only [if_neg hn]
      rw [hc]
      have hno : ¬(some old = some n) := by
        intro h
        exact hn (Option.some.inj h).symm
      rw [if_neg hno]

theorem count_other_eraseChild (f : CodeObject.CodeForest) (self x n : Nat) (hx : x ≠ self) :
    ((CodeObject.eraseChild f self).children n).count x = (f.children n).count x := by
  unfold CodeObject.eraseChild
  cases hp : f.parent self with
  | none => rfl
  | some old =>
    by_cases hn : n = old
    · subst hn
      simp only [eq_self_iff_true, if_true]
      exact List.count_erase_of_ne hx _
    · simp only [if_neg hn]

theorem SetParent_preserves_invariant (f : CodeObject.CodeForest)
    (hinv : CodeObject.ChildListInvariant f) (self : Nat) (p : Option Nat) :
    CodeObject.ChildListInvariant (CodeObject.SetParent f self p) := by
  intro x n
  cases p with
  | none =>
    show ((CodeObject.eraseChild f self).children n).count x =
      if (if x = self then none else (CodeObject.eraseChild f self).parent x) = some n
      then 1 else 0
    rw [parent_eraseChild]
    by_cases hx : x = self
    · subst hx
      simp only [eq_self_iff_true, if_true]
      rw [count_self_eraseChild f hinv]
      simp
    · simp only [if_neg hx]
      rw [count_other_eraseChild f self x n hx]
      exact hinv x n
  | some q =>
    show (if n = q then (CodeObject.eraseChild f self).children q ++ [self]
          else (CodeObject.eraseChild f self).children n).count x =
      if (if x = self then some q else (CodeObject.eraseChild f self).parent x) = some n
      then 1 else 0
    rw [parent_eraseChild]
    by_cases hx : x = self
    · subst hx
      simp only [eq_self_iff_true, if_true]
      by_cases hn : n = q
      · subst hn
        simp only [eq_self_iff_true, if_true]
        rw [List.count_append, count_self_eraseChild f hinv]
        simp
      · simp only [if_neg hn]
        rw [count_self_eraseChild f hinv]
        have hno : ¬(some q = some n) := by
          intro h
          exact hn (Option.some.inj h).symm
        rw [if_neg hno]
    · simp only [if_neg hx]
      by_cases hn : n = q
      · subst hn
        simp only [eq_self_iff_true, if_true]
        rw [List.count_append, count_other_eraseChild f self x n hx]
        have hxs : [self].count x = 0 := by
          simp [List.count_singleton]
          exact fun h => hx h.symm
        rw [hxs, hinv x n]
        simp
      · simp only [if_neg hn]
        rw [count_other_eraseChild f self x n hx]
        exact hinv x n

/-- Claim C3: starting from the empty forest, after any finite sequence of
SetParent calls every node occurs exactly once in the children list of its
current parent and in no other children list; moreover a SetParent to a
new parent removes the node from the old parent list (leaving no
occurrence) and appends it to the new parent list. -/
theorem c3_SetParent_child_lists :
    (∀ ops : List (Nat × Option Nat),
        CodeObject.ChildListInvariant (CodeObject.runSetParents CodeObject.emptyForest ops))
  ∧ (∀ (f : CodeObject.CodeForest) (self old q : Nat),
        CodeObject.ChildListInvariant f → f.parent self = some old → old ≠ q →
        (CodeObject.SetParent f self (some q)).children old = (f.children old).erase self
        ∧ self ∉ (CodeObject.SetParent f self (some q)).children old
        ∧ (CodeObject.SetParent f self (some q)).children q = f.children q ++ [self]
        ∧ (CodeObject.SetParent f self (some q)).parent self = some q) := by
  constructor
  · have key : ∀ (ops : List (Nat × Option Nat)) (f : CodeObject.CodeForest),
        CodeObject.ChildListInvariant f →
        CodeObject.ChildListInvariant (CodeObject.runSetParents f ops) := by
      intro ops
      induction ops with
      | nil => intro f h; exact h
      | cons op rest ih =>
        intro f h
        exact ih _ (SetParent_preserves_invariant f h op.1 op.2)
    intro ops
    apply key
    intro x n
    simp [CodeObject.emptyForest]
  · intro f self old q hinv hold hne
    have herase : (CodeObject.eraseChild f self).children = fun k =>
        if k = old then (f.children old).erase self else f.children k := by
      unfold CodeObject.eraseChild
      rw [hold]
    refine ⟨?_, ?_, ?_, ?_⟩
    · show (if old = q then (CodeObject.eraseChild f self).children q ++ [self]
          else (CodeObject.eraseChild f self).children old) = _
      rw [if_neg hne, herase]
      simp
    · show self ∉ (if old = q then (CodeObject.eraseChild f self).children q ++ [self]
          else (CodeObject.eraseChild f self).children old)
      rw [if_neg hne]
      have h0 := count_self_eraseChild f hinv self old
      rw [List.count_eq_zero] at h0
      exact h0
    · show (if q = q then (CodeObject.eraseChild f self).children q ++ [self]
          else (CodeObject.eraseChild f self).children q) = _
      rw [if_pos rfl, herase]
      have hqo : ¬(q = old) := fun h => hne h.symm
      simp [hqo]
    · show (if self = self then some q else (CodeObject.eraseChild f self).parent self) = some q
      rw [if_pos rfl]

/-- Witness for C3: the invariant holds after a concrete SetParent call,
and reparenting node 1 from parent 0 to parent 2 moves it between the two
children lists. -/
theorem c3_SetParent_child_lists_witness :
    ((CodeObject.SetParent (CodeObject.runSetParents CodeObject.emptyForest [(1, some 0)])
        1 (some 2)).children 0 =
      ((CodeObject.runSetParents CodeObject.emptyForest [(1, some 0)]).children 0).erase 1)
  ∧ (1 ∉ (CodeObject.SetParent (CodeObject.runSetParents CodeObject.emptyForest [(1, some 0)])
        1 (some 2)).children 0)
  ∧ ((CodeObject.SetParent (CodeObject.runSetParents CodeObject.emptyForest [(1, some 0)])
        1 (some 2)).children 2 =
      (CodeObject.runSetParents CodeObject.emptyForest [(1, some 0)]).children 2 ++ [1])
  ∧ ((CodeObject.SetParent (CodeObject.runSetParents CodeObject.emptyForest [(1, some 0)])
        1 (some 2)).parent 1 = some 2) := by
  exact c3_SetParent_child_lists.2 (CodeObject.runSetParents CodeObject.emptyForest [(1, some 0)])
    1 0 2 (c3_SetParent_child_lists.1 [(1, some 0)]) rfl (by decide)
